import Mathlib

set_option linter.unusedVariables false

/-
Verification of the PurpleSec/Mapper statement registry (mapper.go).

The registry is a Go struct with an exported field Database (a possibly
nil database connection) and an unexported field entries (a possibly nil
Go map from name to a possibly nil prepared-statement pointer). We embed
it shallowly: Go maps become association lists with unique keys, nil maps
and nil pointers become Option, and the external database world (prepare,
exec, close outcomes of the driver) becomes a deterministic oracle record.
Every operation additionally returns the list of external calls it made
(prepare, exec, statement close, connection close) so that claims about
which external effects happen, and in which order, are statable. Paths on
which the Go code dereferences a nil pointer (a panic at run time) are
modelled by the Res.panics constructor.
-/

namespace Mapper

/-- Go error values produced by the package: an opaque external error
from the driver, or the package errval struct carrying a message and an
optional wrapped cause (errmsg when the cause field is nil, errwrap when
it holds a cause). -/
inductive GoErr : Type where
  | ext : Nat → GoErr
  | errmsg : String → GoErr
  | errwrap : String → GoErr → GoErr
deriving DecidableEq, Repr

/-- True exactly when the error is one of the package errval wrappers. -/
def isErrval : GoErr → Bool
  | .errmsg _ => true
  | .errwrap _ _ => true
  | .ext _ => false

/-- ErrInvalidDB, returned when the Database field is nil. -/
def ErrInvalidDB : GoErr := .errmsg "database cannot be nil"

/-- The duplicate-name error built by AddContext and ExtendContext. -/
def dupErr (name : String) : GoErr :=
  .errmsg ("statement with name \"" ++ name ++ "\" already exists")

/-- The wrapped prepare error built by AddContext and ExtendContext. -/
def prepErr (name : String) (e : GoErr) : GoErr :=
  .errwrap ("error adding mapping \"" ++ name ++ "\"") e

/-- The wrapped execution error built by BatchContext. -/
def batchErr (q : String) (e : GoErr) : GoErr :=
  .errwrap ("error executing Init statement mapping \"" ++ q ++ "\"") e

/-- The wrapped closing error built by Close. -/
def closeErr (k : String) (e : GoErr) : GoErr :=
  .errwrap ("error closing mapping \"" ++ k ++ "\"") e

/-- The not-found error built by ExecContext and QueryContext. -/
def notFoundErr (name : String) : GoErr :=
  .errmsg ("statement with name \"" ++ name ++ "\" does not exist")

/-- External calls the registry makes: preparing a query, executing a raw
statement on the connection, closing a statement handle, closing the
connection. Statement handles are identified by numbers. -/
inductive Ev : Type where
  | prep : String → Ev
  | execDB : String → Ev
  | closeStmt : Nat → Ev
  | closeDB : Ev
deriving DecidableEq, Repr

/-- The deterministic external world: outcomes of the driver calls the
registry delegates to. none as an Option GoErr outcome means success. -/
structure World : Type where
  prepareRes : String → Except GoErr Nat
  dbExecRes : String → Option GoErr
  dbCloseRes : Option GoErr
  stmtCloseRes : Nat → Option GoErr
  stmtExecRes : Nat → List Nat → Except GoErr Nat
  stmtQueryRes : Nat → List Nat → Except GoErr Nat
  stmtQueryRowRes : Nat → List Nat → Nat

/-- A cancellation context: doneAt i tells whether the Done channel is
closed at the i-th cooperative check of the running loop, errRes is the
value of the Err method then. -/
structure Ctx : Type where
  doneAt : Nat → Bool
  errRes : GoErr

/-- context.Background never fires. -/
def background : Ctx := ⟨fun _ => false, .ext 0⟩

/-- The same context one cooperative check later. -/
def shiftCtx (x : Ctx) : Ctx := ⟨fun i => x.doneAt (i + 1), x.errRes⟩

/-- The Map struct: Database is nil or a connection (its behaviour lives
in the World oracle); entries is a nil or non-nil Go map from name to a
possibly nil statement handle, embedded as an association list. -/
structure Map : Type where
  Database : Option Unit
  entries : Option (List (String × Option Nat))
deriving DecidableEq, Repr

/-- Result of an operation that may hit a nil-pointer dereference. -/
inductive Res (α : Type) : Type where
  | ok : α → Res α
  | panics : Res α
deriving DecidableEq, Repr

/-- Go map read with the comma-ok form: none when the key is absent,
some v when the key is present with value v (v itself may be a nil
statement pointer). -/
def lookupE : List (String × Option Nat) → String → Option (Option Nat)
  | [], _ => none
  | (k, v) :: t, n => if k = n then some v else lookupE t n

/-- Go map write: replace the value when the key is present, append
otherwise. -/
def setE : List (String × Option Nat) → String → Option Nat → List (String × Option Nat)
  | [], n, v => [(n, v)]
  | (k, w) :: t, n, v => if k = n then (n, v) :: t else (k, w) :: setE t n v

/-- Go map delete. -/
def eraseE : List (String × Option Nat) → String → List (String × Option Nat)
  | [], _ => []
  | (k, w) :: t, n => if k = n then eraseE t n else (k, w) :: eraseE t n

/-- The entries map as a list, treating a nil map as empty, as the Go
code does on every read path. -/
def entriesOrNil (m : Map) : List (String × Option Nat) :=
  match m.entries with
  | none => []
  | some l => l

/-- Lookup through the possibly nil entries map. -/
def mLookup (m : Map) (n : String) : Option (Option Nat) :=
  match m.entries with
  | none => none
  | some l => lookupE l n

/-- Len returns the size of the internal mapping, 0 for a nil map. -/
def Len (m : Map) : Nat :=
  match m.entries with
  | none => 0
  | some l => l.length

/-- Contains: false on an empty or nil map, else the comma-ok lookup
with the extra non-nil check on the value. -/
def Contains (m : Map) (name : String) : Bool :=
  match m.entries with
  | none => false
  | some l =>
      if l.length = 0 then false
      else
        match lookupE l name with
        | some (some _) => true
        | _ => false

/-- Get: returns the raw handle and the comma-ok flag, with no non-nil
check on the value. -/
def Get (m : Map) (name : String) : Option Nat × Bool :=
  match m.entries with
  | none => (none, false)
  | some l =>
      if l.length = 0 then (none, false)
      else
        match lookupE l name with
        | none => (none, false)
        | some v => (v, true)

/-- The entry-closing loop of Close: skip nil handles, stop at the first
handle whose close fails (wrapping the error with the name and leaving
that entry and the rest untouched), null out each successfully closed
entry. Returns the error, the mutated list and the close calls made. -/
def closeLoop (w : World) : List (String × Option Nat) →
    Option GoErr × List (String × Option Nat) × List Ev
  | [] => (none, [], [])
  | (k, none) :: t =>
      match closeLoop w t with
      | (e, l2, tr) => (e, (k, none) :: l2, tr)
  | (k, some sid) :: t =>
      match w.stmtCloseRes sid with
      | some e => (some (closeErr k e), (k, some sid) :: t, [Ev.closeStmt sid])
      | none =>
          match closeLoop w t with
          | (e, l2, tr) => (e, (k, none) :: l2, Ev.closeStmt sid :: tr)

/-- Close: run the closing loop over the entries (if the map is non-nil);
on a loop error return it; otherwise call Close on the Database pointer,
which panics when Database is nil and otherwise returns the connection
close outcome unwrapped. -/
def Close (w : World) (m : Map) : Res (Option GoErr × Map × List Ev) :=
  match m.entries with
  | none =>
      match m.Database with
      | none => .panics
      | some _ => .ok (w.dbCloseRes, m, [Ev.closeDB])
  | some l =>
      match closeLoop w l with
      | (some e, l2, tr) => .ok (some e, { m with entries := some l2 }, tr)
      | (none, l2, tr) =>
          match m.Database with
          | none => .panics
          | some _ => .ok (w.dbCloseRes, { m with entries := some l2 }, tr ++ [Ev.closeDB])

/-- Remove: false on a nil map or an absent key; on a present key the Go
code calls Close on the stored pointer, which panics when that pointer is
nil; otherwise the close outcome is discarded, the entry is deleted and
true is returned. -/
def Remove (w : World) (m : Map) (name : String) : Res (Bool × Map × List Ev) :=
  match m.entries with
  | none => .ok (false, m, [])
  | some l =>
      match lookupE l name with
      | none => .ok (false, m, [])
      | some none => .panics
      | some (some sid) =>
          .ok (true, { m with entries := some (eraseE l name) }, [Ev.closeStmt sid])

/-- AddContext: nil Database fails with ErrInvalidDB; a nil entries map
is allocated; a name present with a non-nil handle fails with the
duplicate error before any prepare; otherwise the query is prepared and,
on success, stored under the name, a prepare failure being wrapped. -/
def AddContext (w : World) (x : Ctx) (m : Map) (name query : String) :
    Option GoErr × Map × List Ev :=
  match m.Database with
  | none => (some ErrInvalidDB, m, [])
  | some _ =>
      match lookupE (entriesOrNil m) name with
      | some (some _) => (some (dupErr name), { m with entries := some (entriesOrNil m) }, [])
      | _ =>
          match w.prepareRes query with
          | .ok sid =>
              (none, { m with entries := some (setE (entriesOrNil m) name (some sid)) },
                [Ev.prep query])
          | .error e =>
              (some (prepErr name e), { m with entries := some (entriesOrNil m) },
                [Ev.prep query])

/-- Add is AddContext with the background context. -/
def Add (w : World) (m : Map) (name query : String) : Option GoErr × Map × List Ev :=
  AddContext w background m name query

/-- The statement loop of BatchContext: at each iteration first check the
cancellation context, then execute the statement directly on the
connection, stopping at the first failure with the statement text wrapped
around the error. Returns the error and the executed statements. -/
def batchLoop (w : World) (x : Ctx) (i : Nat) : List String → Option GoErr × List Ev
  | [] => (none, [])
  | q :: t =>
      if x.doneAt i then (some x.errRes, [])
      else
        match w.dbExecRes q with
        | some e => (some (batchErr q e), [Ev.execDB q])
        | none =>
            match batchLoop w x (i + 1) t with
            | (e, tr) => (e, Ev.execDB q :: tr)

/-- BatchContext: an empty statement list succeeds at once (before the
Database check); a nil Database fails with ErrInvalidDB; otherwise the
statements run in order through the loop. The entries map is never read. -/
def BatchContext (w : World) (x : Ctx) (m : Map) (queries : List String) :
    Option GoErr × List Ev :=
  if queries.length = 0 then (none, [])
  else
    match m.Database with
    | none => (some ErrInvalidDB, [])
    | some _ => batchLoop w x 0 queries

/-- Batch is BatchContext with the background context. -/
def Batch (w : World) (m : Map) (queries : List String) : Option GoErr × List Ev :=
  BatchContext w background m queries

/-- The pair loop of ExtendContext: at each iteration first check the
cancellation context, then the duplicate check of Add, then prepare,
stopping at the first failure and keeping the insertions made so far. -/
def extendLoop (w : World) (x : Ctx) (i : Nat) (l : List (String × Option Nat)) :
    List (String × String) → Option GoErr × List (String × Option Nat) × List Ev
  | [] => (none, l, [])
  | (k, v) :: t =>
      if x.doneAt i then (some x.errRes, l, [])
      else
        match lookupE l k with
        | some (some _) => (some (dupErr k), l, [])
        | _ =>
            match w.prepareRes v with
            | .error e => (some (prepErr k e), l, [Ev.prep v])
            | .ok sid =>
                match extendLoop w x (i + 1) (setE l k (some sid)) t with
                | (e, l2, tr) => (e, l2, Ev.prep v :: tr)

/-- ExtendContext: a nil data map succeeds at once (before the Database
check); a nil Database fails with ErrInvalidDB; a nil entries map is
allocated; otherwise the pairs run through the loop in order. -/
def ExtendContext (w : World) (x : Ctx) (m : Map)
    (data : Option (List (String × String))) : Option GoErr × Map × List Ev :=
  match data with
  | none => (none, m, [])
  | some d =>
      match m.Database with
      | none => (some ErrInvalidDB, m, [])
      | some _ =>
          match extendLoop w x 0 (entriesOrNil m) d with
          | (e, l2, tr) => (e, { m with entries := some l2 }, tr)

/-- Extend is ExtendContext with the background context. -/
def Extend (w : World) (m : Map) (data : Option (List (String × String))) :
    Option GoErr × Map × List Ev :=
  ExtendContext w background m data

/-- ExecContext: nil Database fails with ErrInvalidDB; an empty or nil
entries map, an absent name or a nil handle fail with the not-found
error; otherwise the statement executes and its result or error is
returned unchanged. -/
def ExecContext (w : World) (x : Ctx) (m : Map) (name : String) (args : List Nat) :
    Option Nat × Option GoErr :=
  match m.Database with
  | none => (none, some ErrInvalidDB)
  | some _ =>
      match m.entries with
      | none => (none, some (notFoundErr name))
      | some l =>
          if l.length = 0 then (none, some (notFoundErr name))
          else
            match lookupE l name with
            | some (some sid) =>
                match w.stmtExecRes sid args with
                | .ok r => (some r, none)
                | .error e => (none, some e)
            | _ => (none, some (notFoundErr name))

/-- QueryContext: same lookup behaviour as ExecContext, delegating to the
query operation of the handle. -/
def QueryContext (w : World) (x : Ctx) (m : Map) (name : String) (args : List Nat) :
    Option Nat × Option GoErr :=
  match m.Database with
  | none => (none, some ErrInvalidDB)
  | some _ =>
      match m.entries with
      | none => (none, some (notFoundErr name))
      | some l =>
          if l.length = 0 then (none, some (notFoundErr name))
          else
            match lookupE l name with
            | some (some sid) =>
                match w.stmtQueryRes sid args with
                | .ok r => (some r, none)
                | .error e => (none, some e)
            | _ => (none, some (notFoundErr name))

/-- QueryRowContext: every not-found case (nil Database, empty or nil
map, absent name, nil handle) yields (nil, false); otherwise the row
produced by the handle, which is never nil, is returned with true. -/
def QueryRowContext (w : World) (x : Ctx) (m : Map) (name : String) (args : List Nat) :
    Option Nat × Bool :=
  match m.Database with
  | none => (none, false)
  | some _ =>
      match m.entries with
      | none => (none, false)
      | some l =>
          if l.length = 0 then (none, false)
          else
            match lookupE l name with
            | some (some sid) => (some (w.stmtQueryRowRes sid args), true)
            | _ => (none, false)

/-- Exec is ExecContext with the background context. -/
def Exec (w : World) (m : Map) (name : String) (args : List Nat) :
    Option Nat × Option GoErr :=
  ExecContext w background m name args

/-- Query is QueryContext with the background context. -/
def Query (w : World) (m : Map) (name : String) (args : List Nat) :
    Option Nat × Option GoErr :=
  QueryContext w background m name args

/-- QueryRow is QueryRowContext with the background context. -/
def QueryRow (w : World) (m : Map) (name : String) (args : List Nat) :
    Option Nat × Bool :=
  QueryRowContext w background m name args

/-- Registry states reachable from a freshly constructed Map (any
Database, nil entries) through the mutating operations that return
normally. Batch and the read operations do not change the state. -/
inductive Reached (w : World) : Map → Prop where
  | init (d : Option Unit) : Reached w ⟨d, none⟩
  | add {m : Map} {x : Ctx} {n q : String} {e : Option GoErr} {m2 : Map} {tr : List Ev} :
      Reached w m → AddContext w x m n q = (e, m2, tr) → Reached w m2
  | extend {m : Map} {x : Ctx} {d : Option (List (String × String))} {e : Option GoErr}
      {m2 : Map} {tr : List Ev} :
      Reached w m → ExtendContext w x m d = (e, m2, tr) → Reached w m2
  | remove {m : Map} {n : String} {b : Bool} {m2 : Map} {tr : List Ev} :
      Reached w m → Remove w m n = .ok (b, m2, tr) → Reached w m2
  | close {m : Map} {e : Option GoErr} {m2 : Map} {tr : List Ev} :
      Reached w m → Close w m = .ok (e, m2, tr) → Reached w m2

/-- Entries with every handle nulled out, as the closing loop leaves
them. -/
def nullify (l : List (String × Option Nat)) : List (String × Option Nat) :=
  l.map (fun p => (p.1, none))

/-- The statement-close calls the closing loop makes over a list it
traverses completely. -/
def closedTrace (l : List (String × Option Nat)) : List Ev :=
  l.filterMap (fun p => p.2.map Ev.closeStmt)

theorem lookupE_setE_self (l : List (String × Option Nat)) (n : String) (v : Option Nat) :
    lookupE (setE l n v) n = some v := by
  induction l with
  | nil => simp [setE, lookupE]
  | cons p t ih =>
      obtain ⟨k, w⟩ := p
      by_cases h : k = n <;> simp [setE, lookupE, h, ih]

theorem length_setE_of_lookup_none (l : List (String × Option Nat)) (n : String)
    (v : Option Nat) (h : lookupE l n = none) :
    (setE l n v).length = l.length + 1 := by
  induction l with
  | nil => simp [setE]
  | cons p t ih =>
      obtain ⟨k, w⟩ := p
      by_cases hk : k = n
      · simp [lookupE, hk] at h
      · simp only [lookupE, hk, if_false] at h
        simp [setE, hk, ih h]

theorem lookupE_eraseE_self (l : List (String × Option Nat)) (n : String) :
    lookupE (eraseE l n) n = none := by
  induction l with
  | nil => simp [eraseE, lookupE]
  | cons p t ih =>
      obtain ⟨k, w⟩ := p
      by_cases h : k = n <;> simp [eraseE, lookupE, h, ih]

theorem addContext_database (w : World) (x : Ctx) (m : Map) (n q : String) :
    (AddContext w x m n q).2.1.Database = m.Database := by
  unfold AddContext
  cases hd : m.Database with
  | none => exact hd
  | some u =>
      cases h : lookupE (entriesOrNil m) n with
      | none => cases hp : w.prepareRes q <;> rfl
      | some v =>
          cases v with
          | none => cases hp : w.prepareRes q <;> rfl
          | some sid => rfl

theorem extendContext_database (w : World) (x : Ctx) (m : Map)
    (d : Option (List (String × String))) :
    (ExtendContext w x m d).2.1.Database = m.Database := by
  unfold ExtendContext
  cases d with
  | none => rfl
  | some dd =>
      cases hd : m.Database with
      | none => exact hd
      | some u =>
          rcases hr : extendLoop w x 0 (entriesOrNil m) dd with ⟨e1, l2, tr1⟩
          rfl

theorem remove_database (w : World) (m : Map) (n : String) (b : Bool) (m2 : Map)
    (tr : List Ev) (h : Remove w m n = .ok (b, m2, tr)) : m2.Database = m.Database := by
  unfold Remove at h
  cases he : m.entries with
  | none =>
      simp only [he] at h
      cases h
      rfl
  | some l =>
      cases hl : lookupE l n with
      | none =>
          simp only [he, hl] at h
          cases h
          rfl
      | some v =>
          cases v with
          | none =>
              simp only [he, hl] at h
              exact Res.noConfusion h
          | some sid =>
              simp only [he, hl] at h
              cases h
              rfl

theorem close_database (w : World) (m : Map) (e : Option GoErr) (m2 : Map)
    (tr : List Ev) (h : Close w m = .ok (e, m2, tr)) : m2.Database = m.Database := by
  unfold Close at h
  cases he : m.entries with
  | none =>
      cases hd : m.Database with
      | none =>
          simp only [he, hd] at h
          exact Res.noConfusion h
      | some u =>
          simp only [he, hd] at h
          cases h
          exact hd
  | some l =>
      rcases hr : closeLoop w l with ⟨e1, l2, tr1⟩
      cases e1 with
      | some er =>
          simp only [he, hr] at h
          cases h
          rfl
      | none =>
          cases hd : m.Database with
          | none =>
              simp only [he, hr, hd] at h
              exact Res.noConfusion h
          | some u =>
              simp only [he, hr, hd] at h
              cases h
              rfl

theorem addContext_db_none (w : World) (x : Ctx) (m : Map) (n q : String)
    (h : m.Database = none) : AddContext w x m n q = (some ErrInvalidDB, m, []) := by
  unfold AddContext
  rw [h]

theorem extendContext_db_none (w : World) (x : Ctx) (m : Map)
    (d : Option (List (String × String))) (h : m.Database = none) :
    (ExtendContext w x m d).2.1 = m := by
  unfold ExtendContext
  cases d
  · rfl
  · rw [h]

theorem remove_entries_none (w : World) (m : Map) (n : String)
    (h : m.entries = none) : Remove w m n = .ok (false, m, []) := by
  unfold Remove
  rw [h]

theorem close_db_none_entries_none (w : World) (m : Map)
    (hd : m.Database = none) (he : m.entries = none) : Close w m = .panics := by
  unfold Close
  rw [he, hd]

/-- On a reachable state, a nil Database forces a nil entries map: no
operation can ever insert an entry while the Database is nil, and the
Database field is never written by the operations. -/
theorem reached_entries_of_db_none {w : World} {m : Map} (h : Reached w m)
    (hd : m.Database = none) : m.entries = none := by
  induction h with
  | init d => rfl
  | add hm heq ih =>
      rename_i m x n q e m2 tr
      have hdb : m2.Database = m.Database := by
        have := addContext_database w x m n q
        rw [heq] at this
        exact this
      rw [hdb] at hd
      have := addContext_db_none w x m n q hd
      rw [this] at heq
      cases heq
      exact ih hd
  | extend hm heq ih =>
      rename_i m x d e m2 tr
      have hdb : m2.Database = m.Database := by
        have := extendContext_database w x m d
        rw [heq] at this
        exact this
      rw [hdb] at hd
      have hm2 : m2 = m := by
        have := extendContext_db_none w x m d hd
        rw [heq] at this
        exact this
      rw [hm2]
      exact ih hd
  | remove hm heq ih =>
      rename_i m n b m2 tr
      have hdb : m2.Database = m.Database := remove_database w m n b m2 tr heq
      rw [hdb] at hd
      have he := ih hd
      rw [remove_entries_none w m n he] at heq
      cases heq
      exact he
  | close hm heq ih =>
      rename_i m e m2 tr
      have hdb : m2.Database = m.Database := close_database w m e m2 tr heq
      rw [hdb] at hd
      have he := ih hd
      rw [close_db_none_entries_none w m hd he] at heq
      cases heq

theorem entriesOrNil_mk_some (d : Option Unit) (l : List (String × Option Nat)) :
    entriesOrNil (Map.mk d (some l)) = l := rfl

theorem entriesOrNil_mk_none (d : Option Unit) : entriesOrNil (Map.mk d none) = [] := rfl

theorem Len_eq (m : Map) : Len m = (entriesOrNil m).length := by
  unfold Len entriesOrNil
  cases m.entries <;> rfl

theorem contains_some (d : Option Unit) (l : List (String × Option Nat)) (n : String)
    (sid : Nat) (h : lookupE l n = some (some sid)) :
    Contains ⟨d, some l⟩ n = true := by
  unfold Contains
  have hne : l ≠ [] := by
    intro hl
    rw [hl] at h
    cases h
  simp [h, List.length_eq_zero, hne]

theorem contains_none_of_lookup (d : Option Unit) (l : List (String × Option Nat))
    (n : String) (h : lookupE l n = none) : Contains ⟨d, some l⟩ n = false := by
  unfold Contains
  by_cases hz : l.length = 0 <;> simp [hz, h]

theorem closeLoop_ok (w : World) (l : List (String × Option Nat))
    (h : ∀ p ∈ l, ∀ j, p.2 = some j → w.stmtCloseRes j = none) :
    closeLoop w l = (none, nullify l, closedTrace l) := by
  induction l with
  | nil => rfl
  | cons p t ih =>
      obtain ⟨k, v⟩ := p
      have ht : ∀ p ∈ t, ∀ j, p.2 = some j → w.stmtCloseRes j = none := by
        intro p hp j hj
        exact h p (List.mem_cons_of_mem _ hp) j hj
      cases v with
      | none => simp [closeLoop, ih ht, nullify, closedTrace]
      | some sid =>
          have hc : w.stmtCloseRes sid = none :=
            h (k, some sid) (List.mem_cons_self _ _) sid rfl
          simp [closeLoop, hc, ih ht, nullify, closedTrace]

theorem closeLoop_fail (w : World) (pre post : List (String × Option Nat)) (k : String)
    (sid : Nat) (e : GoErr)
    (hpre : ∀ p ∈ pre, ∀ j, p.2 = some j → w.stmtCloseRes j = none)
    (hfail : w.stmtCloseRes sid = some e) :
    closeLoop w (pre ++ (k, some sid) :: post) =
      (some (closeErr k e), nullify pre ++ (k, some sid) :: post,
        closedTrace pre ++ [Ev.closeStmt sid]) := by
  induction pre with
  | nil => simp [closeLoop, hfail, nullify, closedTrace]
  | cons p t ih =>
      obtain ⟨k2, v⟩ := p
      have ht : ∀ p ∈ t, ∀ j, p.2 = some j → w.stmtCloseRes j = none := by
        intro p hp j hj
        exact hpre p (List.mem_cons_of_mem _ hp) j hj
      cases v with
      | none => simp [closeLoop, ih ht, nullify, closedTrace]
      | some sid2 =>
          have hc : w.stmtCloseRes sid2 = none :=
            hpre (k2, some sid2) (List.mem_cons_self _ _) sid2 rfl
          simp [closeLoop, hc, ih ht, nullify, closedTrace]

theorem extendLoop_shift (w : World) (x : Ctx) (t : List (String × String)) :
    ∀ (i : Nat) (l : List (String × Option Nat)),
      extendLoop w x (i + 1) l t = extendLoop w (shiftCtx x) i l t := by
  induction t with
  | nil => intro i l; rfl
  | cons p t ih =>
      intro i l
      obtain ⟨k, v⟩ := p
      by_cases hdn : x.doneAt (i + 1)
      · simp [extendLoop, shiftCtx, hdn]
      · cases hl : lookupE l k with
        | none =>
            cases hp : w.prepareRes v with
            | ok sid => simp [extendLoop, shiftCtx, hdn, hl, hp, ih]
            | error e => simp [extendLoop, shiftCtx, hdn, hl, hp]
        | some v2 =>
            cases v2 with
            | none =>
                cases hp : w.prepareRes v with
                | ok sid => simp [extendLoop, shiftCtx, hdn, hl, hp, ih]
                | error e => simp [extendLoop, shiftCtx, hdn, hl, hp]
            | some sid0 => simp [extendLoop, shiftCtx, hdn, hl]

theorem batchLoop_shift (w : World) (x : Ctx) (t : List String) :
    ∀ (i : Nat), batchLoop w x (i + 1) t = batchLoop w (shiftCtx x) i t := by
  induction t with
  | nil => intro i; rfl
  | cons q t ih =>
      intro i
      by_cases hdn : x.doneAt (i + 1)
      · simp [batchLoop, shiftCtx, hdn]
      · cases hq : w.dbExecRes q with
        | none => simp [batchLoop, shiftCtx, hdn, hq, ih]
        | some e => simp [batchLoop, shiftCtx, hdn, hq]

/-- A sample world: every prepare yields handle 0 and every external call
succeeds. -/
def wOk : World :=
  ⟨fun _ => .ok 0, fun _ => none, none, fun _ => none,
    fun _ _ => .ok 0, fun _ _ => .ok 0, fun _ _ => 0⟩

/-- Claim C1: on every reachable registry state in which name n is mapped
to a non-null handle, AddContext (and hence Add) returns the
duplicate-name error, makes no external call (in particular it never
prepares the query), and returns the state unchanged: the entries mapping
and the existing handle for n are untouched. -/
theorem claim_C1 (w : World) (x : Ctx) (m : Map) (n q : String) (sid : Nat)
    (hre : Reached w m) (hdup : mLookup m n = some (some sid)) :
    AddContext w x m n q = (some (dupErr n), m, []) := by
  obtain ⟨l, he⟩ : ∃ l, m.entries = some l := by
    cases he : m.entries with
    | none =>
        unfold mLookup at hdup
        rw [he] at hdup
        cases hdup
    | some l => exact ⟨l, rfl⟩
  have hdb : m.Database = some () := by
    cases hd : m.Database with
    | none =>
        have hn := reached_entries_of_db_none hre hd
        rw [hn] at he
        cases he
    | some u => cases u; rfl
  have hlk : lookupE (entriesOrNil m) n = some (some sid) := by
    unfold mLookup at hdup
    rw [he] at hdup
    unfold entriesOrNil
    rw [he]
    exact hdup
  have heta : Map.mk (some ()) (some (entriesOrNil m)) = m := by
    unfold entriesOrNil
    rw [he]
    cases m
    simp only at he hdb
    rw [he, hdb]
  unfold AddContext
  simp only [hdb, hlk]
  rw [heta]

/-- Witness for C1 at a concrete reachable state: after a successful Add
of name a, a second Add of a is rejected with the duplicate error and
changes nothing. -/
theorem claim_C1_witness :
    Reached wOk ⟨some (), some [("a", some 0)]⟩ ∧
    mLookup ⟨some (), some [("a", some 0)]⟩ "a" = some (some 0) ∧
    AddContext wOk background ⟨some (), some [("a", some 0)]⟩ "a" "q2" =
      (some (dupErr "a"), ⟨some (), some [("a", some 0)]⟩, []) := by
  have h0 : Reached wOk ⟨some (), none⟩ := Reached.init (some ())
  have h1 : Reached wOk ⟨some (), some [("a", some 0)]⟩ :=
    Reached.add h0 (x := background) (n := "a") (q := "q") rfl
  exact ⟨h1, rfl, claim_C1 wOk background _ "a" "q2" 0 h1 rfl⟩

/-- Claim C9: for every name n not yet registered (absent from entries)
and every query q whose prepare succeeds, Add(n, q) succeeds, Contains(n)
afterwards yields true, and Len() grows by exactly one. -/
theorem claim_C9 (w : World) (x : Ctx) (m : Map) (n q : String) (sid : Nat)
    (hdb : m.Database = some ()) (habs : mLookup m n = none)
    (hprep : w.prepareRes q = .ok sid) :
    (AddContext w x m n q).1 = none ∧
    Contains (AddContext w x m n q).2.1 n = true ∧
    Len (AddContext w x m n q).2.1 = Len m + 1 := by
  have hl : lookupE (entriesOrNil m) n = none := by
    unfold mLookup at habs
    unfold entriesOrNil
    cases he : m.entries with
    | none => rfl
    | some l => rw [he] at habs; exact habs
  unfold AddContext
  simp only [hdb, hl, hprep]
  refine ⟨trivial, ?_, ?_⟩
  · exact contains_some _ _ _ _ (lookupE_setE_self (entriesOrNil m) n (some sid))
  · simp only [Len_eq]
    exact length_setE_of_lookup_none (entriesOrNil m) n (some sid) hl

/-- Witness for C9 on the empty registry with the sample world. -/
theorem claim_C9_witness :
    (Map.mk (some ()) none).Database = some () ∧
    mLookup (Map.mk (some ()) none) "a" = none ∧
    wOk.prepareRes "q" = .ok 0 ∧
    ((AddContext wOk background (Map.mk (some ()) none) "a" "q").1 = none ∧
      Contains (AddContext wOk background (Map.mk (some ()) none) "a" "q").2.1 "a" = true ∧
      Len (AddContext wOk background (Map.mk (some ()) none) "a" "q").2.1 =
        Len (Map.mk (some ()) none) + 1) :=
  ⟨rfl, rfl, rfl, claim_C9 wOk background (Map.mk (some ()) none) "a" "q" 0 rfl rfl rfl⟩

/-- Claim C10: Batch on an empty statement list and Extend on a nil data
map succeed with no error and no effect on every registry, in particular
one whose connection is nil: the emptiness checks precede the
InvalidConnection check, so neither call can report it. -/
theorem claim_C10 (w : World) (x : Ctx) (m : Map) :
    BatchContext w x m [] = (none, []) ∧ ExtendContext w x m none = (none, m, []) :=
  ⟨rfl, rfl⟩

theorem execContext_absent (w : World) (x : Ctx) (m : Map) (n : String) (args : List Nat)
    (hdb : m.Database = some ())
    (habs : mLookup m n = none ∨ mLookup m n = some none) :
    ExecContext w x m n args = (none, some (notFoundErr n)) := by
  unfold ExecContext
  simp only [hdb]
  cases he : m.entries with
  | none => rfl
  | some l =>
      unfold mLookup at habs
      rw [he] at habs
      replace habs : lookupE l n = none ∨ lookupE l n = some none := habs
      by_cases hz : l.length = 0
      · simp [hz]
      · rcases habs with hl | hl <;> simp [hz, hl]

theorem queryContext_absent (w : World) (x : Ctx) (m : Map) (n : String) (args : List Nat)
    (hdb : m.Database = some ())
    (habs : mLookup m n = none ∨ mLookup m n = some none) :
    QueryContext w x m n args = (none, some (notFoundErr n)) := by
  unfold QueryContext
  simp only [hdb]
  cases he : m.entries with
  | none => rfl
  | some l =>
      unfold mLookup at habs
      rw [he] at habs
      replace habs : lookupE l n = none ∨ lookupE l n = some none := habs
      by_cases hz : l.length = 0
      · simp [hz]
      · rcases habs with hl | hl <;> simp [hz, hl]

theorem queryRowContext_absent (w : World) (x : Ctx) (m : Map) (n : String)
    (args : List Nat) (hdb : m.Database = some ())
    (habs : mLookup m n = none ∨ mLookup m n = some none) :
    QueryRowContext w x m n args = (none, false) := by
  unfold QueryRowContext
  simp only [hdb]
  cases he : m.entries with
  | none => rfl
  | some l =>
      unfold mLookup at habs
      rw [he] at habs
      replace habs : lookupE l n = none ∨ lookupE l n = some none := habs
      by_cases hz : l.length = 0
      · simp [hz]
      · rcases habs with hl | hl <;> simp [hz, hl]

theorem queryRowContext_found_isSome (w : World) (x : Ctx) (m2 : Map) (n2 : String)
    (args2 : List Nat) (hf : (QueryRowContext w x m2 n2 args2).2 = true) :
    (QueryRowContext w x m2 n2 args2).1.isSome = true := by
  revert hf
  unfold QueryRowContext
  split
  · exact fun hf => Bool.noConfusion hf
  · split
    · exact fun hf => Bool.noConfusion hf
    · split
      · exact fun hf => Bool.noConfusion hf
      · split
        · exact fun hf => rfl
        · exact fun hf => Bool.noConfusion hf

/-- Claim C4: with a non-null connection and a name absent from entries
or mapped to a null handle, Exec and Query return the not-found error,
QueryRow returns (nil, false) carrying no error value, and whenever
QueryRow reports found = true the returned row handle is non-null. -/
theorem claim_C4 (w : World) (x : Ctx) (m : Map) (n : String) (args : List Nat)
    (hdb : m.Database = some ())
    (habs : mLookup m n = none ∨ mLookup m n = some none) :
    ExecContext w x m n args = (none, some (notFoundErr n)) ∧
    QueryContext w x m n args = (none, some (notFoundErr n)) ∧
    QueryRowContext w x m n args = (none, false) ∧
    ∀ (m2 : Map) (n2 : String) (args2 : List Nat),
      (QueryRowContext w x m2 n2 args2).2 = true →
      (QueryRowContext w x m2 n2 args2).1.isSome = true :=
  ⟨execContext_absent w x m n args hdb habs,
    queryContext_absent w x m n args hdb habs,
    queryRowContext_absent w x m n args hdb habs,
    fun m2 n2 args2 => queryRowContext_found_isSome w x m2 n2 args2⟩

/-- Witness for C4: absent name on an empty registry with a connection. -/
theorem claim_C4_witness :
    (Map.mk (some ()) none).Database = some () ∧
    mLookup (Map.mk (some ()) none) "a" = none ∧
    ExecContext wOk background (Map.mk (some ()) none) "a" [] =
      (none, some (notFoundErr "a")) := by
  refine ⟨rfl, rfl, ?_⟩
  exact (claim_C4 wOk background (Map.mk (some ()) none) "a" [] rfl (Or.inl rfl)).1

/-- Claim C5: ExtendContext applies Add semantics to each pair in order:
with a non-null connection, extending by a first pair and a rest first
checks the cancellation token (stopping with the verbatim context error
and no prepare), then behaves exactly as AddContext on the first pair
followed, only on success, by ExtendContext on the rest under the token
shifted by one check; so it stops at the first duplicate name, prepare
error or cancellation and keeps every entry added before that point. -/
theorem claim_C5 (w : World) (x : Ctx) (m : Map) (k v : String)
    (t : List (String × String)) (hdb : m.Database = some ()) :
    ExtendContext w x m (some ((k, v) :: t)) =
      (if x.doneAt 0 then (some x.errRes, { m with entries := some (entriesOrNil m) }, [])
       else
         match AddContext w x m k v with
         | (some e, m2, tr) => (some e, m2, tr)
         | (none, m2, tr) =>
             match ExtendContext w (shiftCtx x) m2 (some t) with
             | (e2, m3, tr2) => (e2, m3, tr ++ tr2)) := by
  unfold ExtendContext AddContext
  simp only [hdb]
  cases hdn : x.doneAt 0 with
  | true => simp [extendLoop, hdn]
  | false =>
      cases hlk : lookupE (entriesOrNil m) k with
      | some v2 =>
          cases v2 with
          | some sid => simp [extendLoop, hdn, hlk]
          | none =>
              cases hp : w.prepareRes v with
              | error e => simp [extendLoop, hdn, hlk, hp]
              | ok sid =>
                  have hsh : extendLoop w x 1 (setE (entriesOrNil m) k (some sid)) t =
                      extendLoop w (shiftCtx x) 0 (setE (entriesOrNil m) k (some sid)) t :=
                    extendLoop_shift w x t 0 _
                  rcases hr : extendLoop w (shiftCtx x) 0
                      (setE (entriesOrNil m) k (some sid)) t with ⟨e2, l2, tr2⟩
                  simp [extendLoop, entriesOrNil_mk_some, hdn, hlk, hp, hsh, hr]
      | none =>
          cases hp : w.prepareRes v with
          | error e => simp [extendLoop, hdn, hlk, hp]
          | ok sid =>
              have hsh : extendLoop w x 1 (setE (entriesOrNil m) k (some sid)) t =
                  extendLoop w (shiftCtx x) 0 (setE (entriesOrNil m) k (some sid)) t :=
                extendLoop_shift w x t 0 _
              rcases hr : extendLoop w (shiftCtx x) 0
                  (setE (entriesOrNil m) k (some sid)) t with ⟨e2, l2, tr2⟩
              simp [extendLoop, entriesOrNil_mk_some, hdn, hlk, hp, hsh, hr]

/-- Witness for C5 on the empty registry: a one-pair Extend behaves as
the corresponding Add. -/
theorem claim_C5_witness :
    (Map.mk (some ()) none).Database = some () ∧
    ExtendContext wOk background (Map.mk (some ()) none) (some [("a", "q")]) =
      (if background.doneAt 0
       then (some background.errRes,
         { Map.mk (some ()) none with
             entries := some (entriesOrNil (Map.mk (some ()) none)) }, [])
       else
         match AddContext wOk background (Map.mk (some ()) none) "a" "q" with
         | (some e, m2, tr) => (some e, m2, tr)
         | (none, m2, tr) =>
             match ExtendContext wOk (shiftCtx background) m2 (some []) with
             | (e2, m3, tr2) => (e2, m3, tr ++ tr2)) :=
  ⟨rfl, claim_C5 wOk background (Map.mk (some ()) none) "a" "q" [] rfl⟩

/-- Claim C6: BatchContext runs the statements in list order directly on
the connection: on a nil connection a non-empty batch fails with
ErrInvalidDB and executes nothing; the outcome never depends on the
entries registry; with a connection, a batch with head q first checks the
cancellation token (stopping with the verbatim context error and no
execution), then executes q, stopping at a failure with the error
wrapped with the failing statement text and nothing after q executed,
and otherwise continues with the rest under the shifted token, the
execution of q recorded first. -/
theorem claim_C6 (w : World) (x : Ctx) (es es2 : Option (List (String × Option Nat)))
    (q : String) (t : List String) :
    BatchContext w x (Map.mk none es) (q :: t) = (some ErrInvalidDB, []) ∧
    (∀ (d : Option Unit) (qs : List String),
      BatchContext w x (Map.mk d es) qs = BatchContext w x (Map.mk d es2) qs) ∧
    BatchContext w x (Map.mk (some ()) es) (q :: t) =
      (if x.doneAt 0 then (some x.errRes, [])
       else
         match w.dbExecRes q with
         | some e => (some (batchErr q e), [Ev.execDB q])
         | none =>
             match BatchContext w (shiftCtx x) (Map.mk (some ()) es) t with
             | (e2, tr2) => (e2, Ev.execDB q :: tr2)) := by
  refine ⟨rfl, ?_, ?_⟩
  · intro d qs
    cases qs with
    | nil => rfl
    | cons q2 t2 => cases d <;> rfl
  · show batchLoop w x 0 (q :: t) = _
    have hsh : batchLoop w x 1 t = batchLoop w (shiftCtx x) 0 t := batchLoop_shift w x t 0
    have hb : BatchContext w (shiftCtx x) (Map.mk (some ()) es) t =
        batchLoop w (shiftCtx x) 0 t := by
      cases t <;> rfl
    cases hdn : x.doneAt 0 with
    | true => simp [batchLoop, hdn]
    | false =>
        cases hq : w.dbExecRes q with
        | some e => simp [batchLoop, hdn, hq]
        | none =>
            rcases hr : batchLoop w (shiftCtx x) 0 t with ⟨e2, tr2⟩
            simp [batchLoop, hdn, hq, hb, hsh, hr]

/-- A sample world for Close: statement 1 fails to close with the raw
driver error ext 7, every other statement closes, and closing the
connection fails with the raw driver error ext 5. -/
def wC2 : World :=
  ⟨fun _ => .ok 0, fun _ => none, some (.ext 5),
    fun j => if j = 1 then some (.ext 7) else none,
    fun _ _ => .ok 0, fun _ _ => .ok 0, fun _ _ => 0⟩

/-- Counterexample to C2 as stated: when every entry has closed and the
connection close itself fails, Close returns the raw driver error as is,
not a CloseFailed-style errval wrapper naming anything. -/
theorem claim_C2_counterexample :
    Close wC2 (Map.mk (some ()) none) =
      .ok (some (.ext 5), Map.mk (some ()) none, [Ev.closeDB]) ∧
    isErrval (.ext 5) = false :=
  ⟨rfl, rfl⟩

/-- Claim C2 (amended): Close stops at the first entry whose close
fails, returning that error wrapped with the failing name, leaving the
failing and all following entries unclosed and never touching the
connection; entries closed before the failure are nulled in place, so a
repeated Close retries only the residual set; only when every entry
closes is the connection closed, and a failure there is returned as the
raw driver error, unwrapped. -/
theorem claim_C2_amended (w : World) (d : Option Unit) :
    (∀ (pre post : List (String × Option Nat)) (k : String) (sid : Nat) (e : GoErr),
      (∀ p ∈ pre, ∀ j, p.2 = some j → w.stmtCloseRes j = none) →
      w.stmtCloseRes sid = some e →
      Close w (Map.mk d (some (pre ++ (k, some sid) :: post))) =
        .ok (some (closeErr k e),
          Map.mk d (some (nullify pre ++ (k, some sid) :: post)),
          closedTrace pre ++ [Ev.closeStmt sid])) ∧
    (∀ (l : List (String × Option Nat)),
      (∀ p ∈ l, ∀ j, p.2 = some j → w.stmtCloseRes j = none) →
      Close w (Map.mk (some ()) (some l)) =
        .ok (w.dbCloseRes, Map.mk (some ()) (some (nullify l)),
          closedTrace l ++ [Ev.closeDB])) := by
  constructor
  · intro pre post k sid e hpre hfail
    unfold Close
    simp only [closeLoop_fail w pre post k sid e hpre hfail]
  · intro l hall
    unfold Close
    simp only [closeLoop_ok w l hall]

/-- Witness for C2 (amended): a two-entry registry whose second entry
fails to close keeps the failing entry and nulls the first; a one-entry
registry that closes cleanly reaches the connection close and surfaces
its raw error. -/
theorem claim_C2_amended_witness :
    Close wC2 (Map.mk (some ()) (some [("a", some 0), ("b", some 1)])) =
      .ok (some (closeErr "b" (.ext 7)),
        Map.mk (some ()) (some [("a", none), ("b", some 1)]),
        [Ev.closeStmt 0, Ev.closeStmt 1]) ∧
    Close wC2 (Map.mk (some ()) (some [("a", some 0)])) =
      .ok (some (.ext 5), Map.mk (some ()) (some [("a", none)]),
        [Ev.closeStmt 0, Ev.closeDB]) := by
  constructor
  · exact (claim_C2_amended wC2 (some ())).1 [("a", some 0)] [] "b" 1 (.ext 7)
      (by
        intro p hp j hj
        simp only [List.mem_singleton] at hp
        subst hp
        cases hj
        rfl)
      rfl
  · exact (claim_C2_amended wC2 (some ())).2 [("a", some 0)]
      (by
        intro p hp j hj
        simp only [List.mem_singleton] at hp
        subst hp
        cases hj
        rfl)

/-- Counterexample to C3 as stated: after Add of name a and a fully
successful Close, the reachable state still has a present for the Go
map, mapped to a null handle that persists after Close returned, and Get
reports it as existing, returning (nil, true). -/
theorem claim_C3_counterexample :
    Reached wOk (Map.mk (some ()) (some [("a", none)])) ∧
    Get (Map.mk (some ()) (some [("a", none)])) "a" = (none, true) := by
  constructor
  · exact Reached.close
      (Reached.add (Reached.init (some ())) (x := background) (n := "a") (q := "q") rfl)
      rfl
  · rfl

/-- Claim C3 (amended): a name present in entries maps to a non-null
handle or, after a Close, to a null one that persists; Contains, Exec,
Query and QueryRow all treat such a present-but-null entry as absent,
but Get reports it as existing, returning a null handle with found =
true. -/
theorem claim_C3_amended (w : World) (x : Ctx) (m : Map) (n : String) (args : List Nat)
    (hnull : mLookup m n = some none) :
    Contains m n = false ∧
    QueryRowContext w x m n args = (none, false) ∧
    (m.Database = some () →
      ExecContext w x m n args = (none, some (notFoundErr n)) ∧
      QueryContext w x m n args = (none, some (notFoundErr n))) ∧
    Get m n = (none, true) := by
  obtain ⟨l, he⟩ : ∃ l, m.entries = some l := by
    cases he : m.entries with
    | none =>
        unfold mLookup at hnull
        rw [he] at hnull
        cases hnull
    | some l => exact ⟨l, rfl⟩
  have hl : lookupE l n = some none := by
    unfold mLookup at hnull
    rw [he] at hnull
    exact hnull
  have hz : ¬l.length = 0 := by
    intro h0
    rw [List.length_eq_zero] at h0
    rw [h0] at hl
    cases hl
  refine ⟨?_, ?_, ?_, ?_⟩
  · unfold Contains
    rw [he]
    simp [hz, hl]
  · unfold QueryRowContext
    cases hd : m.Database with
    | none => rfl
    | some u =>
        rw [he]
        simp [hz, hl]
  · intro hdb
    exact ⟨execContext_absent w x m n args hdb (Or.inr hnull),
      queryContext_absent w x m n args hdb (Or.inr hnull)⟩
  · unfold Get
    rw [he]
    simp [hz, hl]

/-- Witness for C3 (amended) on the concrete post-Close state with a
null entry for name a. -/
theorem claim_C3_amended_witness :
    mLookup (Map.mk (some ()) (some [("a", none)])) "a" = some none ∧
    Contains (Map.mk (some ()) (some [("a", none)])) "a" = false ∧
    Get (Map.mk (some ()) (some [("a", none)])) "a" = (none, true) := by
  have h := claim_C3_amended wOk background
    (Map.mk (some ()) (some [("a", none)])) "a" [] rfl
  exact ⟨rfl, h.1, h.2.2.2⟩

/-- Counterexample to C7 as stated: on the reachable post-Close state
mapping name a to a null handle, Remove(a) neither returns false (name
absent) nor closes, deletes and returns true (name present): the Go code
calls Close on the nil statement pointer it finds and panics. -/
theorem claim_C7_counterexample :
    Reached wOk (Map.mk (some ()) (some [("a", none)])) ∧
    Remove wOk (Map.mk (some ()) (some [("a", none)])) "a" = Res.panics := by
  constructor
  · exact Reached.close
      (Reached.add (Reached.init (some ())) (x := background) (n := "a") (q := "q") rfl)
      rfl
  · rfl

/-- Claim C7 (amended): Remove on an absent name (including a nil
entries map) returns false and leaves the state, hence Len, unchanged;
on a name present with a non-null handle it calls close on that handle,
discards the close outcome whatever the world says, deletes the map
entry and returns true, after which Contains of the name is false; but
on a name present with a null handle, as a previous Close leaves behind,
Remove panics instead of returning. -/
theorem claim_C7_amended (w : World) (m : Map) (n : String) :
    (mLookup m n = none → Remove w m n = .ok (false, m, [])) ∧
    (∀ (l : List (String × Option Nat)) (sid : Nat),
      m.entries = some l → lookupE l n = some (some sid) →
      Remove w m n =
        .ok (true, Map.mk m.Database (some (eraseE l n)), [Ev.closeStmt sid]) ∧
      Contains (Map.mk m.Database (some (eraseE l n))) n = false) ∧
    (mLookup m n = some none → Remove w m n = .panics) := by
  refine ⟨?_, ?_, ?_⟩
  · intro habs
    unfold Remove
    cases he : m.entries with
    | none => rfl
    | some l =>
        unfold mLookup at habs
        rw [he] at habs
        replace habs : lookupE l n = none := habs
        simp [habs]
  · intro l sid he hl
    constructor
    · unfold Remove
      rw [he]
      simp [hl]
    · exact contains_none_of_lookup m.Database (eraseE l n) n (lookupE_eraseE_self l n)
  · intro hnull
    obtain ⟨l, he⟩ : ∃ l, m.entries = some l := by
      cases he : m.entries with
      | none =>
          unfold mLookup at hnull
          rw [he] at hnull
          cases hnull
      | some l => exact ⟨l, rfl⟩
    have hl : lookupE l n = some none := by
      unfold mLookup at hnull
      rw [he] at hnull
      exact hnull
    unfold Remove
    rw [he]
    simp [hl]

/-- Witness for C7 (amended) at concrete states: an absent name on the
empty registry, a present non-null name, and the reachable null-handle
entry. -/
theorem claim_C7_amended_witness :
    Remove wOk (Map.mk (some ()) none) "a" = .ok (false, Map.mk (some ()) none, []) ∧
    Remove wOk (Map.mk (some ()) (some [("a", some 0)])) "a" =
      .ok (true, Map.mk (some ()) (some []), [Ev.closeStmt 0]) ∧
    Remove wOk (Map.mk (some ()) (some [("b", none)])) "b" = Res.panics := by
  refine ⟨?_, ?_, ?_⟩
  · exact (claim_C7_amended wOk (Map.mk (some ()) none) "a").1 rfl
  · exact ((claim_C7_amended wOk (Map.mk (some ()) (some [("a", some 0)])) "a").2.1
      [("a", some 0)] 0 rfl rfl).1
  · exact (claim_C7_amended wOk (Map.mk (some ()) (some [("b", none)])) "b").2.2 rfl

/-- Counterexample to C8 as stated: Close on a freshly constructed
registry with a nil connection does not report an error value; the Go
code calls Close on the nil database pointer and panics. -/
theorem claim_C8_counterexample :
    Reached wOk (Map.mk none none) ∧ Close wOk (Map.mk none none) = Res.panics :=
  ⟨Reached.init none, rfl⟩

/-- Claim C8 (amended): with a nil connection every operation except
Close reports a value instead of crashing - Add, Extend on a non-nil
data map, and Batch on a non-empty list return ErrInvalidDB without
touching anything, Exec and Query return it too, and QueryRow reports
(nil, false); Contains, Get and Len never consult the connection; but
Close is the exception: with a nil connection, once every entry has
closed successfully, it calls close on the nil connection pointer and
panics instead of reporting an error. -/
theorem claim_C8_amended (w : World) (x : Ctx) (es : Option (List (String × Option Nat)))
    (n q qs : String) (d : List (String × String)) (t : List String) (args : List Nat) :
    AddContext w x (Map.mk none es) n q = (some ErrInvalidDB, Map.mk none es, []) ∧
    ExtendContext w x (Map.mk none es) (some d) = (some ErrInvalidDB, Map.mk none es, []) ∧
    BatchContext w x (Map.mk none es) (qs :: t) = (some ErrInvalidDB, []) ∧
    ExecContext w x (Map.mk none es) n args = (none, some ErrInvalidDB) ∧
    QueryContext w x (Map.mk none es) n args = (none, some ErrInvalidDB) ∧
    QueryRowContext w x (Map.mk none es) n args = (none, false) ∧
    Close w (Map.mk none none) = Res.panics :=
  ⟨rfl, rfl, rfl, rfl, rfl, rfl, rfl⟩

end Mapper
